import Mathlib

/-!
Verification of the eth-lsd-relay core against its specification.

The Go sources embedded here:
  * pkg/utils/eth2.go   — epoch/slot math, proposal id packing, reward split,
                          WaitTxOkCommon
  * pkg/utils/utils.go  — RetryLimit/RetryInterval, ReadLastLine
  * service/service_manager.go — ServiceManager reconciliation, setMerkleRoot

Machine integers (Go `uint64`) are modelled as `Nat` with explicit `% 2^64`
where Go wraps.  `decimal.Decimal` (shopspring) values are modelled as `ℚ`:
shopspring addition, subtraction and multiplication are exact, and `Div` is
`DivRound` at `DivisionPrecision = 16` fractional digits, rounding half away
from zero; `divRound` below reproduces exactly that rounding.
-/

/-! ## Epoch / slot math (pkg/utils/eth2.go lines 95-118)

Go `uint64` arithmetic wraps modulo `2^64`; subtraction of unsigned values
`a - b` is `(a + 2^64 - b) % 2^64` for `a b < 2^64`.  Division is Go's
truncating unsigned division (and panics on a zero divisor, which the
theorems exclude by hypothesis). -/

def U64MOD : Nat := 2 ^ 64

def u64add (a b : Nat) : Nat := (a + b) % U64MOD

def u64sub (a b : Nat) : Nat := (a + U64MOD - b % U64MOD) % U64MOD

def u64mul (a b : Nat) : Nat := a * b % U64MOD

structure Eth2Config where
  genesisEpoch : Nat
  genesisTime : Nat
  secondsPerSlot : Nat
  slotsPerEpoch : Nat
  secondsPerEpoch : Nat
deriving DecidableEq

/-- `EpochAtTimestamp` (eth2.go line 96):
`config.GenesisEpoch + (time-config.GenesisTime)/config.SecondsPerEpoch`. -/
def EpochAtTimestamp (config : Eth2Config) (time : Nat) : Nat :=
  u64add config.genesisEpoch (u64sub time config.genesisTime / config.secondsPerEpoch)

/-- `SlotAtTimestamp` (eth2.go line 100). -/
def SlotAtTimestamp (config : Eth2Config) (time : Nat) : Nat :=
  u64sub time config.genesisTime / config.secondsPerSlot

/-- `StartTimestampOfEpoch` (eth2.go line 104). -/
def StartTimestampOfEpoch (config : Eth2Config) (epoch : Nat) : Nat :=
  u64add (u64mul (u64sub epoch config.genesisEpoch) config.secondsPerEpoch) config.genesisTime

/-- `TimestampOfSlot` (eth2.go line 108): `slot*config.SecondsPerSlot + config.GenesisTime`. -/
def TimestampOfSlot (config : Eth2Config) (slot : Nat) : Nat :=
  u64add (u64mul slot config.secondsPerSlot) config.genesisTime

/-- `StartSlotOfEpoch` (eth2.go line 113): `config.SlotsPerEpoch * epoch`. -/
def StartSlotOfEpoch (config : Eth2Config) (epoch : Nat) : Nat :=
  u64mul config.slotsPerEpoch epoch

/-- `EndSlotOfEpoch` (eth2.go line 116). -/
def EndSlotOfEpoch (config : Eth2Config) (epoch : Nat) : Nat :=
  u64sub (u64mul config.slotsPerEpoch (u64add epoch 1)) 1

/-! ## Reward split (pkg/utils/eth2.go lines 302-319)

shopspring decimals are a subring of `ℚ`; `Mul`, `Add`, `Sub` are exact, and
`Div` is `DivRound` at 16 fractional digits with the final digit rounded half
away from zero.  `Percent5Deci = decimal.NewFromFloat(0.05)` is exactly
`5/100` and `Percent90Deci = decimal.NewFromFloat(0.9)` exactly `9/10`
(`NewFromFloat` uses the shortest decimal representation of the float, which
for these literals is the literal itself). -/

def DivisionPrecision : Nat := 16

/-- shopspring rounding half away from zero to an integer. -/
def roundHalfAway (q : ℚ) : ℤ :=
  if 0 ≤ q then ⌊q + 1 / 2⌋ else -⌊-q + 1 / 2⌋

/-- shopspring `Div` = `DivRound` at `DivisionPrecision = 16`. -/
def divRound (x y : ℚ) : ℚ :=
  (roundHalfAway (x / y * 10 ^ DivisionPrecision) : ℚ) / 10 ^ DivisionPrecision

def Percent5Deci : ℚ := 5 / 100

def Percent90Deci : ℚ := 9 / 10

/-- `StandardEffectiveBalanceDeci = decimal.NewFromBigInt(big.NewInt(32), 18)` = `32·10^18`. -/
def StandardEffectiveBalanceDeci : ℚ := 32 * 10 ^ 18

/-- `GetUserNodePlatformReward` (eth2.go lines 302-319), returning
`(userReward, nodeReward, platformFee)`. -/
def GetUserNodePlatformReward (nodeDepositAmount rewardDeci : ℚ) : ℚ × ℚ × ℚ :=
  if ¬ 0 < rewardDeci ∨ StandardEffectiveBalanceDeci < nodeDepositAmount then (0, 0, 0)
  else
    let platformFeeDeci := rewardDeci * Percent5Deci
    let nodeRewardDeci := platformFeeDeci +
      divRound (rewardDeci * Percent90Deci * nodeDepositAmount) StandardEffectiveBalanceDeci
    let userRewardDeci := rewardDeci - platformFeeDeci - nodeRewardDeci
    (if userRewardDeci < 0 then 0 else userRewardDeci, nodeRewardDeci, platformFeeDeci)

/-! ## Retry constants and WaitTxOkCommon (pkg/utils/utils.go lines 28-31,
pkg/utils/eth2.go lines 223-294)

The two polling loops are driven by oracles giving the node's response to the
`i`-th `TransactionByHash` call and to the `k`-th `TransactionReceipt` call.
Each failed attempt sleeps `RetryInterval` (6 seconds) before the counter is
incremented, exactly as in the source; wall-clock time itself is not
modelled.  The deferred handler fires `ShutdownRequestChannel` exactly when
the function returns a non-nil error; `shutdownFired` records that. -/

def RetryLimit : Nat := 600

/-- `RetryInterval = 6 * time.Second`, in seconds. -/
def RetryInterval : Nat := 6

/-- Node response to one `TransactionByHash` poll: RPC error, pending, or
known and no longer pending. -/
inductive TxByHashResp where
  | rpcErr
  | pending
  | notPending
deriving DecidableEq

/-- Node response to one `TransactionReceipt` poll: RPC error, or a receipt
with a status and a block number. -/
inductive ReceiptResp where
  | rpcErr
  | found (status : Nat) (blockNumber : Nat)
deriving DecidableEq

/-- The inner receipt loop of `WaitTxOkCommon` (eth2.go lines 260-277):
polls `TransactionReceipt` until it succeeds.  The loop guard
`subRetry > RetryLimit` is encoded by the fuel argument: the loop is entered
with `fuel = RetryLimit + 1 - subRetry`, so fuel `0` is exactly the guard
firing, and each failed attempt increments `subRetry` and decrements the
fuel. -/
def receiptLoopAux (f : Nat → ReceiptResp) : Nat → Nat → Except String (Nat × Nat)
  | 0, _ => .error "TransactionReceipt reach retry limit"
  | fuel + 1, subRetry =>
    match f subRetry with
    | .rpcErr => receiptLoopAux f fuel (subRetry + 1)
    | .found status blockNumber => .ok (status, blockNumber)

def receiptLoop (f : Nat → ReceiptResp) (subRetry : Nat) : Except String (Nat × Nat) :=
  receiptLoopAux f (RetryLimit + 1 - subRetry) subRetry

/-- The outer loop of `WaitTxOkCommon` (eth2.go lines 232-287): polls
`TransactionByHash` until the transaction is no longer pending (RPC errors
and `pending` both retry), then runs the receipt loop and checks the
status.  The guard `retry > RetryLimit` is encoded by the fuel argument
exactly as in `receiptLoopAux`. -/
def txLoopAux (g : Nat → TxByHashResp) (f : Nat → ReceiptResp) :
    Nat → Nat → Except String Nat
  | 0, _ => .error "waitTx reach retry limit"
  | fuel + 1, retry =>
    match g retry with
    | .rpcErr => txLoopAux g f fuel (retry + 1)
    | .pending => txLoopAux g f fuel (retry + 1)
    | .notPending =>
      match receiptLoop f 0 with
      | .error e => .error e
      | .ok (status, blockNumber) =>
        if status = 1 then .ok blockNumber else .error "tx failed"

def txLoop (g : Nat → TxByHashResp) (f : Nat → ReceiptResp) (retry : Nat) :
    Except String Nat :=
  txLoopAux g f (RetryLimit + 1 - retry) retry

structure WaitTxOutcome where
  blockNumber : Option Nat
  errMsg : Option String
  shutdownFired : Bool
deriving DecidableEq

/-- `WaitTxOkCommon` (eth2.go lines 223-294): the loops above plus the
deferred shutdown escalation, which fires exactly when the returned error is
non-nil. -/
def WaitTxOkCommon (g : Nat → TxByHashResp) (f : Nat → ReceiptResp) : WaitTxOutcome :=
  match txLoop g f 0 with
  | .ok blockNumber => ⟨some blockNumber, none, false⟩
  | .error e => ⟨none, some e, true⟩

/-! ## ReadLastLine (pkg/utils/utils.go lines 205-254)

The file content is a byte list.  The loop reads bytes backwards from EOF;
the byte at cursor `-1` (the very last byte) is prepended unconditionally —
the `cursor != -1` guard skips the newline *test*, not the prepend — and
afterwards bytes are prepended until a `\n` (10) or `\r` (13) is met
(excluded) or the start of the file is reached. -/

/-- The backward scan of `ReadLastLine`, expressed over the reversed
content: the last byte is always taken, then bytes are taken until a newline
or carriage return. -/
def readLastLineRev : List Nat → List Nat
  | [] => []
  | c :: rest => c :: rest.takeWhile (fun b => decide (b ≠ 10 ∧ b ≠ 13))

/-- `ReadLastLine` on a file with the given byte content (an empty file
returns the empty string). -/
def ReadLastLine (content : List Nat) : List Nat :=
  (readLastLineRev content.reverse).reverse

/-- The last textual line of a byte sequence: the suffix after the last
`\n`/`\r`.  Used to state the spec's "last textual line". -/
def lastTextualLine (content : List Nat) : List Nat :=
  (content.reverse.takeWhile (fun b => decide (b ≠ 10 ∧ b ≠ 13))).reverse

/-- Byte list of an ASCII string (file contents in the scenarios are ASCII). -/
def strBytes (s : String) : List Nat :=
  s.toList.map Char.toNat

/-! ## Byte-level helpers for proposal ids and hashes

`big.Int.Bytes()` is the big-endian magnitude, empty for zero;
`common.LeftPadBytes(b, 32)` left-pads with zeros to 32 bytes (and leaves
longer inputs unchanged). -/

/-- Big-endian bytes of a natural number, empty for `0` (`big.Int.Bytes`).
Structural recursion on a fuel that starts at `n`; since `n / 256 < n` for
`n > 0`, a fuel of `n` always suffices, so the fuel never runs out. -/
def natToBytesAux : Nat → Nat → List Nat
  | 0, _ => []
  | fuel + 1, n => if n = 0 then [] else natToBytesAux fuel (n / 256) ++ [n % 256]

def natToBytes (n : Nat) : List Nat :=
  natToBytesAux n n

/-- `common.LeftPadBytes(bs, 32)`. -/
def leftPad32 (bs : List Nat) : List Nat :=
  List.replicate (32 - bs.length) 0 ++ bs

/-- Modelled from the spec: Keccak-256 (`crypto.Keccak256Hash`, an external
go-ethereum primitive not under src/) — no verified property depends on its
output value, only on its being a deterministic function of the packed
preimage, so it is modelled as the identity on byte lists. -/
def keccak256 (bs : List Nat) : List Nat := bs

/-- `VoteMerkleRootProposalId` (eth2.go lines 210-212):
`keccak("setMerkleRoot" ‖ pad32(dealedEpoch) ‖ merkleRoot ‖ cid)`. -/
def VoteMerkleRootProposalId (dealedEpoch : Nat) (merkleRoot : List Nat) (cid : String) :
    List Nat :=
  keccak256 (strBytes "setMerkleRoot" ++ leftPad32 (natToBytes dealedEpoch) ++
    merkleRoot ++ strBytes cid)

/-! ## Merkle tree (Modelled from the spec)

`utils.NewMerkleTree`, `GetRootHash`, `GetProof` and `GetNodeHash` are code
of this repository that is not under src/ (only their callers in
service_manager.go are).  They are modelled from spec §4.2: balanced binary
tree over the list of leaf hashes, a level with an odd node count promotes
its last node unchanged, parent = `keccak(min(l,r) ‖ max(l,r))` (numeric
compare), `GetProof` returns the sibling hash at each level from leaf to
root, and empty input / missing leaf / empty tree are errors. -/

def bytesToNat (bs : List Nat) : Nat :=
  bs.foldl (fun acc b => acc * 256 + b) 0

/-- Parent hash: `keccak(min(l,r) ‖ max(l,r))`, pairs ordered by numeric
compare before hashing (spec §4.2). -/
def pairHash (x y : List Nat) : List Nat :=
  if bytesToNat x ≤ bytesToNat y then keccak256 (x ++ y) else keccak256 (y ++ x)

/-- One level up: adjacent nodes are paired; an odd last node is promoted
unchanged. -/
def nextLevel : List (List Nat) → List (List Nat)
  | [] => []
  | [a] => [a]
  | a :: b :: rest => pairHash a b :: nextLevel rest

/-- All levels of the tree, leaves first, root level last.  Structural
recursion on a fuel that starts at the leaf count: a level of length ≥ 2
strictly shrinks under `nextLevel`, so the loop reaches a single node within
`leaves.length` rounds and the fuel never runs out. -/
def buildLevelsAux : Nat → List (List Nat) → List (List (List Nat))
  | 0, level => [level]
  | fuel + 1, level =>
    if level.length ≤ 1 then [level]
    else level :: buildLevelsAux fuel (nextLevel level)

def buildLevels (level : List (List Nat)) : List (List (List Nat)) :=
  buildLevelsAux level.length level

def NewMerkleTree (leaves : List (List Nat)) : List (List (List Nat)) :=
  buildLevels leaves

def getRootHash (tree : List (List (List Nat))) : Except String (List Nat) :=
  match tree.getLast? with
  | none => .error "empty merkle tree"
  | some lvl =>
    match lvl.head? with
    | none => .error "empty merkle tree"
    | some h => .ok h

/-- Sibling hashes along the path from leaf index `idx` to the root; a
promoted node (no sibling at its level) contributes nothing at that level,
and the root level contributes nothing. -/
def proofPath : List (List (List Nat)) → Nat → List (List Nat)
  | [], _ => []
  | [_], _ => []
  | level :: next :: rest, idx =>
    let sib := if idx % 2 = 0 then idx + 1 else idx - 1
    (match level[sib]? with
     | some h => [h]
     | none => []) ++ proofPath (next :: rest) (idx / 2)

def getProof (tree : List (List (List Nat))) (leaf : List Nat) :
    Except String (List (List Nat)) :=
  match tree.head? with
  | none => .error "merkle tree is empty"
  | some base =>
    match base.findIdx? (· == leaf) with
    | none => .error "node not exist in merkle tree"
    | some idx => .ok (proofPath tree idx)

/-- Modelled from the spec: `utils.GetNodeHash` —
`keccak(pad32(index) ‖ address20 ‖ pad32(totalRewardAmount) ‖
pad32(totalExitDepositAmount))` (spec §6).  The 20 address bytes decoded
from the hex string are modelled as the raw string bytes; the decoding is
immaterial to the verified properties. -/
def getNodeHash (index : Nat) (address : String)
    (totalRewardAmount totalExitDepositAmount : Int) : List Nat :=
  keccak256 (leftPad32 (natToBytes index) ++ strBytes address ++
    leftPad32 (natToBytes totalRewardAmount.natAbs) ++
    leftPad32 (natToBytes totalExitDepositAmount.natAbs))

/-! ## setMerkleRoot (service/service_manager.go lines 183-432)

`decimal.Decimal` reward amounts only ever flow through exact additions
here, so they are modelled as `Int`.  `common.HexToAddress` keys the maps by
the parsed 20-byte address; addresses are modelled as their hex strings with
the parse as the identity on canonical forms. -/

structure NodeReward where
  address : String
  index : Nat
  totalRewardAmount : Int
  totalExitDepositAmount : Int
  proof : String
deriving DecidableEq

structure NodeNewReward where
  address : String
  totalRewardAmount : Int
  totalExitDepositAmount : Int
deriving DecidableEq

def nodeLeafHash (n : NodeReward) : List Nat :=
  getNodeHash n.index n.address n.totalRewardAmount n.totalExitDepositAmount

/-- `buildMerkleTree` (service_manager.go lines 363-375). -/
def buildMerkleTree (nodelist : List NodeReward) : Except String (List (List (List Nat))) :=
  if nodelist.length = 0 then .error "proof list empty"
  else .ok (NewMerkleTree (nodelist.map nodeLeafHash))

/-- `github.com/pkg/errors.Wrap`: wrapping a nil error yields nil — the
message is discarded.  This is the exact behavior of
`errors.Wrap(err, "tree.GetProof result empty")` at service_manager.go line
323, where `err` is nil. -/
def errorsWrap : Option String → String → Option String
  | none, _ => none
  | some e, msg => some (msg ++ ": " ++ e)

/-- The pre-rewards map building loop (service_manager.go lines 245-252):
errors on a duplicate address. -/
def buildPreMap : List NodeReward → List (String × NodeReward) →
    Option (List (String × NodeReward))
  | [], acc => some acc
  | node :: rest, acc =>
    if (acc.lookup node.address).isSome then none
    else buildPreMap rest (acc ++ [(node.address, node)])

/-- One step of the final-map merge (service_manager.go lines 260-288): add
the amounts into an existing entry, or insert a fresh entry (index 0, empty
proof). -/
def addReward (m : List (String × NodeReward)) (address : String) (r e : Int) :
    List (String × NodeReward) :=
  match m.lookup address with
  | some _ => m.map fun p =>
      if p.1 = address then
        (p.1, { p.2 with totalRewardAmount := p.2.totalRewardAmount + r,
                         totalExitDepositAmount := p.2.totalExitDepositAmount + e })
      else p
  | none => m ++ [(address,
      { address := address, index := 0, totalRewardAmount := r,
        totalExitDepositAmount := e, proof := "" })]

/-- Stable insertion into a list sorted by address
(`sort.SliceStable` with `Address <` at service_manager.go lines 295-297). -/
def insertByAddr (x : NodeReward) : List NodeReward → List NodeReward
  | [] => [x]
  | y :: ys => if x.address < y.address then x :: y :: ys else y :: insertByAddr x ys

def sortByAddr : List NodeReward → List NodeReward
  | [] => []
  | x :: xs => insertByAddr x (sortByAddr xs)

/-- Merge of the previous list and the new rewards into the sorted,
re-indexed final list (service_manager.go lines 259-300). -/
def buildFinalList (preMap : List (String × NodeReward))
    (newList : List NodeNewReward) : List NodeReward :=
  let m1 := preMap.foldl
    (fun m p => addReward m p.2.address p.2.totalRewardAmount p.2.totalExitDepositAmount) []
  let m2 := newList.foldl
    (fun m n => addReward m n.address n.totalRewardAmount n.totalExitDepositAmount) m1
  ((sortByAddr (m2.map Prod.snd)).enum.map fun p => { p.2 with index := p.1 })

/-- Lowercase hex digit. -/
def hexDigitChar (n : Nat) : Char :=
  if n < 10 then Char.ofNat (48 + n) else Char.ofNat (87 + n)

/-- Hex string of a byte list (`NodeHash.String()`, no `0x` per spec §6). -/
def bytesToHexStr (bs : List Nat) : String :=
  ⟨bs.foldr (fun b acc => hexDigitChar (b / 16 % 16) :: hexDigitChar (b % 16) :: acc) []⟩

/-- The per-leaf proof computation loop (service_manager.go lines 315-332).
`.error none` is the `return errors.Wrap(err, "tree.GetProof result empty")`
path with `err = nil`: the enclosing function returns a nil error, i.e.
succeeds. -/
def calcProofs (tree : List (List (List Nat))) :
    List NodeReward → Except (Option String) (List NodeReward)
  | [] => .ok []
  | node :: rest =>
    match getProof tree (nodeLeafHash node) with
    | .error e => .error (errorsWrap (some e) "tree.GetProof failed")
    | .ok proofList =>
      if proofList.isEmpty then .error (errorsWrap none "tree.GetProof result empty")
      else
        match calcProofs tree rest with
        | .error e => .error e
        | .ok rest2 =>
          .ok ({ node with
                 proof := String.intercalate ":" (proofList.map bytesToHexStr) } :: rest2)

/-- `copy(merkleTreeRootHash[:], rootHash)` into a zeroed `[32]byte`
(service_manager.go lines 346-347). -/
def copyInto32 (src : List Nat) : List Nat :=
  src.take 32 ++ List.replicate (32 - (src.take 32).length) 0

/-- The environment of one `setMerkleRoot` run: the service configuration
and the responses of the external collaborators (beacon node, contracts, web3
storage, signer).  `Option` models a failing call. -/
structure SmrEnv where
  merkleRootDuEpochs : Nat
  latestBlockOfSyncBlock : Nat
  networkCreateBlock : Nat
  beaconFinalizedEpoch : Option Nat
  latestMerkleRootEpochOnchain : Option Nat
  epochStartBlock : Nat → Option Nat
  setMerkleRootEventCid : Nat → Option String
  downloadAndParse : String → Nat → Option (List NodeReward)
  getNodeNewRewardsBetween : Nat → Nat → Option (List NodeNewReward)
  uploadFile : List NodeReward → Option String
  hasVotedErr : Bool
  lockTxOptsOk : Bool
  sendTxOk : Bool
  waitTxSucceeds : Bool

/-- Modelled from the spec: the on-chain NetworkProposal contract records,
per proposal id, whether this relay has voted; a successful `SetMerkleRoot`
transaction records the vote (spec §4.6.1 steps 8-9 and the §8 `HasVoted`
gate). -/
structure ChainWorld where
  voted : List (List Nat)

def ChainWorld.hasVoted (w : ChainWorld) (pid : List Nat) : Bool :=
  w.voted.contains pid

/-- Observable outcome of one `setMerkleRoot` run: the returned error (none
= nil), the uploaded rewards file if the upload happened, and the
`SetMerkleRoot` transaction if one was submitted. -/
structure SmrOutcome where
  err : Option String
  uploaded : Option (List NodeReward)
  txSent : Option (Nat × List Nat × String)

/-- `checkStateForSetMerkleRoot` (service_manager.go lines 379-413):
`.ok none` = should not go next; `.ok (some (dealedEpochOnchain,
targetEpoch, targetEth1BlockHeight))` = proceed. -/
def checkStateForSetMerkleRoot (env : SmrEnv) : Except String (Option (Nat × Nat × Nat)) :=
  match env.beaconFinalizedEpoch with
  | none => .error "Eth2BeaconHead failed"
  | some finalizedEpoch =>
    let targetEpoch := finalizedEpoch / env.merkleRootDuEpochs * env.merkleRootDuEpochs
    match env.latestMerkleRootEpochOnchain with
    | none => .error "LatestMerkleRootEpoch failed"
    | some dealedEpochOnchain =>
      if targetEpoch ≤ dealedEpochOnchain then .ok none
      else
        match env.epochStartBlock targetEpoch with
        | none => .error "getEpochStartBlocknumberWithCheck failed"
        | some targetEth1BlockHeight =>
          if targetEth1BlockHeight > env.latestBlockOfSyncBlock then .ok none
          else .ok (some (dealedEpochOnchain, targetEpoch, targetEth1BlockHeight))

/-- Result of everything in `setMerkleRoot` up to and including the upload
and the proposal-id inputs (service_manager.go lines 202-347): not yet time
(`noGo`), a returned error (`fail`), the nil-error early return of the
empty-proof branch (`earlyOk`), or ready to check the vote
(`ready targetEpoch root32 cid uploadedList`). -/
inductive PrepResult where
  | noGo
  | fail (msg : String)
  | earlyOk
  | ready (targetEpoch : Nat) (root32 : List Nat) (cid : String) (uploaded : List NodeReward)

/-- `setMerkleRoot` (service_manager.go lines 202-347), the phase before the
`HasVoted` check: state check, previous-file download and duplicate check,
new-rewards merge, sort and index assignment, Merkle tree, proofs, upload. -/
def prepareSetMerkleRoot (env : SmrEnv) : PrepResult :=
  match checkStateForSetMerkleRoot env with
  | .error e => .fail ("setMerkleRoot checkSyncState failed: " ++ e)
  | .ok none => .noGo
  | .ok (some (dealedEpochOnchain, targetEpoch, targetEth1BlockHeight)) =>
    let preStep : Except String (List NodeReward × Nat) :=
      if dealedEpochOnchain > 0 then
        match env.setMerkleRootEventCid dealedEpochOnchain with
        | none => .error "SetMerkleRoot event not exit on target epoch"
        | some preCid =>
          match env.downloadAndParse preCid dealedEpochOnchain with
          | none => .error "DownloadWeb3File or Unmarshal failed"
          | some preNodeRewardList =>
            match env.epochStartBlock dealedEpochOnchain with
            | none => .error "getEpochStartBlocknumberWithCheck failed"
            | some dealedEth1BlockHeight => .ok (preNodeRewardList, dealedEth1BlockHeight)
      else .ok ([], env.networkCreateBlock)
    match preStep with
    | .error e => .fail e
    | .ok (preNodeRewardList, dealedEth1BlockHeight) =>
      match buildPreMap preNodeRewardList [] with
      | none => .fail "duplicate node address"
      | some preNodeRewardMap =>
        match env.getNodeNewRewardsBetween dealedEth1BlockHeight targetEth1BlockHeight with
        | none => .fail "getNodeNewRewardsBetween failed"
        | some newNodeRewardsList =>
          let finalNodeRewardsList := buildFinalList preNodeRewardMap newNodeRewardsList
          let rootStep : Except (Option String) (List NodeReward × List Nat) :=
            if finalNodeRewardsList.length > 0 then
              match buildMerkleTree finalNodeRewardsList with
              | .error e => .error (some e)
              | .ok tree =>
                match getRootHash tree with
                | .error e => .error (some e)
                | .ok rootHash =>
                  match calcProofs tree finalNodeRewardsList with
                  | .error eo => .error eo
                  | .ok withProofs => .ok (withProofs, rootHash)
            else .ok (finalNodeRewardsList, [])
          match rootStep with
          | .error none => .earlyOk
          | .error (some e) => .fail e
          | .ok (finalList, rootHash) =>
            match env.uploadFile finalList with
            | none => .fail "UploadFileToWeb3Storage failed"
            | some cid => .ready targetEpoch (copyInto32 rootHash) cid finalList

/-- `sendSetMerkleRootTx` (service_manager.go lines 415-432): lock the
shared tx opts, submit `SetMerkleRoot`, wait for the receipt.  A successful
transaction records this relay's vote on-chain (modelled from the spec). -/
def sendSetMerkleRootTx (env : SmrEnv) (w : ChainWorld) (targetEpoch : Nat)
    (rootHash : List Nat) (cid : String) (uploaded : List NodeReward) :
    SmrOutcome × ChainWorld :=
  if ¬ env.lockTxOptsOk then (⟨some "LockAndUpdateTxOpts err", some uploaded, none⟩, w)
  else if ¬ env.sendTxOk then (⟨some "SetMerkleRoot send err", some uploaded, none⟩, w)
  else if env.waitTxSucceeds then
    (⟨none, some uploaded, some (targetEpoch, rootHash, cid)⟩,
     ⟨VoteMerkleRootProposalId targetEpoch rootHash cid :: w.voted⟩)
  else (⟨some "tx failed", some uploaded, some (targetEpoch, rootHash, cid)⟩, w)

/-- `setMerkleRoot` (service_manager.go lines 202-361): the prepare phase,
then the `HasVoted` gate (lines 349-358), then the transaction (line 360). -/
def setMerkleRoot (env : SmrEnv) (w : ChainWorld) : SmrOutcome × ChainWorld :=
  match prepareSetMerkleRoot env with
  | .noGo => (⟨none, none, none⟩, w)
  | .fail e => (⟨some e, none, none⟩, w)
  | .earlyOk => (⟨none, none, none⟩, w)
  | .ready targetEpoch root32 cid uploaded =>
    if env.hasVotedErr then
      (⟨some "networkProposalContract.HasVoted err", some uploaded, none⟩, w)
    else if w.hasVoted (VoteMerkleRootProposalId targetEpoch root32 cid) then
      (⟨none, some uploaded, none⟩, w)
    else sendSetMerkleRootTx env w targetEpoch root32 cid uploaded

/-- Number of `SetMerkleRoot` transactions submitted in one outcome. -/
def SmrOutcome.txCount (o : SmrOutcome) : Nat :=
  if o.txSent.isSome then 1 else 0

/-! ## Service manager (service/service_manager.go lines 21-166)

The services map (`xsync.MapOf[string, *Service]`) is modelled as an
association list keyed by the token address string; `Store` replaces an
existing key or appends, `Load` is lookup, `Range` with `Delete` of
non-listed keys is a filter.  A stopped service is recorded by its id in
`stoppedIds`.  `NewService` and `Service.Start` are external to this file's
sources and may fail; the oracles `newServiceOk`/`startServiceOk` decide
that. -/

structure Contracts where
  lsdTokenAddress : String
deriving DecidableEq

structure Config where
  eth1Endpoint : String
  eth2Endpoint : String
  gasLimit : String
  maxGasPrice : String
  runForEntrustedLsdNetwork : Bool
  contracts : Contracts
deriving DecidableEq

structure Service where
  cfg : Config
  id : Nat
deriving DecidableEq

structure ManagerState where
  cfg : Config
  srvs : List (String × Service)
  nextId : Nat
  stoppedIds : List Nat

structure MgrEnv where
  factoryTokens : Option (List String)
  newServiceOk : String → Bool
  startServiceOk : String → Bool

/-- `xsync.MapOf.Store`: replace the value under an existing key, else add
the binding. -/
def mapStore (m : List (String × Service)) (k : String) (v : Service) :
    List (String × Service) :=
  if (m.lookup k).isSome then m.map (fun p => if p.1 = k then (k, v) else p)
  else m ++ [(k, v)]

/-- `newAndStartServiceFor` (service_manager.go lines 154-166): copy the
manager's config, replace `Contracts.LsdTokenAddress` by the token, build
and start the service, store it under the token. -/
def newAndStartServiceFor (env : MgrEnv) (lsdToken : String) (st : ManagerState) :
    Option (Service × ManagerState) :=
  let srvConfig := { st.cfg with contracts := { st.cfg.contracts with lsdTokenAddress := lsdToken } }
  if ¬ env.newServiceOk lsdToken then none
  else if ¬ env.startServiceOk lsdToken then none
  else
    let srv : Service := { cfg := srvConfig, id := st.nextId }
    some (srv, { st with srvs := mapStore st.srvs lsdToken srv, nextId := st.nextId + 1 })

/-- The add loop of `syncEntrustedLsdTokens` (service_manager.go lines
133-140): start a service for every listed token not already present;
`none` = the pass failed. -/
def syncAddTokens (env : MgrEnv) : List String → ManagerState → Option ManagerState
  | [], st => some st
  | token :: rest, st =>
    if (st.srvs.lookup token).isSome then syncAddTokens env rest st
    else
      match newAndStartServiceFor env token st with
      | none => none
      | some (_, st2) => syncAddTokens env rest st2

/-- The removal loop of `syncEntrustedLsdTokens` (service_manager.go lines
142-149): stop and delete every service whose token is not listed. -/
def syncRemoveTokens (tokenList : List String) (st : ManagerState) : ManagerState :=
  { st with
    srvs := st.srvs.filter (fun p => tokenList.contains p.1),
    stoppedIds := st.stoppedIds ++
      ((st.srvs.filter (fun p => ¬ tokenList.contains p.1)).map (fun p => p.2.id)) }

/-- `syncEntrustedLsdTokens` (service_manager.go lines 122-152): fetch the
entrusted token list from the factory, add missing services, remove
unlisted ones.  `none` = the pass failed. -/
def syncEntrustedLsdTokens (env : MgrEnv) (st : ManagerState) : Option ManagerState :=
  match env.factoryTokens with
  | none => none
  | some tokenList =>
    match syncAddTokens env tokenList st with
    | none => none
    | some st2 => some (syncRemoveTokens tokenList st2)

/-- A concrete healthy environment whose rewards window is empty: finalized
epoch 80, cycle length 75 (so target epoch 75), nothing dealt on-chain yet,
no new node rewards, upload returns `"cid-empty"`. -/
def smrEnvEmpty : SmrEnv where
  merkleRootDuEpochs := 75
  latestBlockOfSyncBlock := 1000
  networkCreateBlock := 1
  beaconFinalizedEpoch := some 80
  latestMerkleRootEpochOnchain := some 0
  epochStartBlock := fun _ => some 500
  setMerkleRootEventCid := fun _ => none
  downloadAndParse := fun _ _ => none
  getNodeNewRewardsBetween := fun _ _ => some []
  uploadFile := fun _ => some "cid-empty"
  hasVotedErr := false
  lockTxOptsOk := true
  sendTxOk := true
  waitTxSucceeds := true

/-- The same environment with exactly one node accruing rewards in the
window: the final rewards list has a single leaf, whose Merkle proof is
empty. -/
def smrEnvOneNode : SmrEnv :=
  { smrEnvEmpty with
    getNodeNewRewardsBetween := fun _ _ =>
      some [{ address := "0xabc", totalRewardAmount := 5, totalExitDepositAmount := 0 }] }

/-- A concrete manager configuration for witnesses. -/
def cfgDemo : Config where
  eth1Endpoint := "http-eth1"
  eth2Endpoint := "http-eth2"
  gasLimit := "3000000"
  maxGasPrice := "600"
  runForEntrustedLsdNetwork := true
  contracts := { lsdTokenAddress := "T0" }

/-- A concrete manager state with services for tokens `T1` and `T2`. -/
def mgrStateDemo : ManagerState where
  cfg := cfgDemo
  srvs := [("T1", { cfg := cfgDemo, id := 0 }), ("T2", { cfg := cfgDemo, id := 1 })]
  nextId := 2
  stoppedIds := []

/-- A concrete manager environment: the factory now lists only `T1`, and
service construction always succeeds. -/
def mgrEnvDemo : MgrEnv where
  factoryTokens := some ["T1"]
  newServiceOk := fun _ => true
  startServiceOk := fun _ => true

/-- The manager state after one successful reconciliation pass of
`mgrStateDemo` against token set `{T1}`: `T2`'s service (id 1) stopped and
removed, `T1` untouched. -/
def mgrStateDemoSynced : ManagerState where
  cfg := cfgDemo
  srvs := [("T1", { cfg := cfgDemo, id := 0 })]
  nextId := 2
  stoppedIds := [1]

/-- The service built by `newAndStartServiceFor` for token `T9` from
`mgrStateDemo`: the manager's config with only the token address replaced. -/
def srvDemoT9 : Service where
  cfg := { cfgDemo with contracts := { lsdTokenAddress := "T9" } }
  id := 2

/-- `mgrStateDemo` after storing `srvDemoT9` under `T9`. -/
def mgrStateDemoT9 : ManagerState where
  cfg := cfgDemo
  srvs := mgrStateDemo.srvs ++ [("T9", srvDemoT9)]
  nextId := 3
  stoppedIds := []

/-! # Theorems -/

/-! ## C3 — epoch round trip -/

/-- Claim C3 counterexample: with `secondsPerEpoch = secondsPerSlot *
slotsPerEpoch` and `e = 1 ≥ genesisEpoch = 1`, the round trip
`EpochAtTimestamp (TimestampOfSlot (StartSlotOfEpoch e))` yields `2`, not
`e = 1`: `StartSlotOfEpoch` does not subtract `genesisEpoch`, while
`EpochAtTimestamp` adds it. -/
theorem c3_epoch_roundtrip_counterexample :
    (⟨1, 0, 12, 32, 384⟩ : Eth2Config).secondsPerEpoch =
      (⟨1, 0, 12, 32, 384⟩ : Eth2Config).secondsPerSlot *
        (⟨1, 0, 12, 32, 384⟩ : Eth2Config).slotsPerEpoch ∧
    (⟨1, 0, 12, 32, 384⟩ : Eth2Config).genesisEpoch ≤ 1 ∧
    EpochAtTimestamp ⟨1, 0, 12, 32, 384⟩
      (TimestampOfSlot ⟨1, 0, 12, 32, 384⟩
        (StartSlotOfEpoch ⟨1, 0, 12, 32, 384⟩ 1)) = 2 ∧ (2 : Nat) ≠ 1 := by
  decide

/-- Claim C3 (amended): for every `Eth2Config` with `secondsPerEpoch =
secondsPerSlot * slotsPerEpoch` (both factors positive) and every epoch
`e ≥ genesisEpoch`, absent `uint64` overflow the round trip
`EpochAtTimestamp (TimestampOfSlot (StartSlotOfEpoch e))` equals
`genesisEpoch + e` — hence equals `e` exactly when `genesisEpoch = 0`. -/
theorem c3_epoch_roundtrip (c : Eth2Config) (e : Nat)
    (hconf : c.secondsPerEpoch = c.secondsPerSlot * c.slotsPerEpoch)
    (hsps : 0 < c.secondsPerSlot) (hspe : 0 < c.slotsPerEpoch)
    (hge : c.genesisEpoch ≤ e)
    (hbound : c.slotsPerEpoch * e * c.secondsPerSlot + c.genesisTime < U64MOD)
    (hsum : c.genesisEpoch + e < U64MOD) :
    EpochAtTimestamp c (TimestampOfSlot c (StartSlotOfEpoch c e)) = c.genesisEpoch + e := by
  have hse : c.slotsPerEpoch * e ≤ c.slotsPerEpoch * e * c.secondsPerSlot :=
    Nat.le_mul_of_pos_right _ hsps
  simp only [EpochAtTimestamp, TimestampOfSlot, StartSlotOfEpoch, u64add, u64sub, u64mul]
  rw [Nat.mod_eq_of_lt (show c.slotsPerEpoch * e < U64MOD by omega)]
  rw [Nat.mod_eq_of_lt (show c.slotsPerEpoch * e * c.secondsPerSlot < U64MOD by omega)]
  rw [Nat.mod_eq_of_lt hbound]
  rw [Nat.mod_eq_of_lt (show c.genesisTime < U64MOD by omega)]
  rw [show c.slotsPerEpoch * e * c.secondsPerSlot + c.genesisTime + U64MOD - c.genesisTime
      = c.slotsPerEpoch * e * c.secondsPerSlot + U64MOD by omega]
  rw [Nat.add_mod_right,
    Nat.mod_eq_of_lt (show c.slotsPerEpoch * e * c.secondsPerSlot < U64MOD by omega)]
  rw [hconf]
  rw [show c.slotsPerEpoch * e * c.secondsPerSlot = c.secondsPerSlot * c.slotsPerEpoch * e by ring]
  rw [Nat.mul_div_cancel_left e (Nat.mul_pos hsps hspe)]
  exact Nat.mod_eq_of_lt hsum

/-- Witness for C3 (amended) at the mainnet configuration and `e = 5`. -/
theorem c3_epoch_roundtrip_witness :
    EpochAtTimestamp ⟨0, 1606824023, 12, 32, 384⟩
      (TimestampOfSlot ⟨0, 1606824023, 12, 32, 384⟩
        (StartSlotOfEpoch ⟨0, 1606824023, 12, 32, 384⟩ 5)) = 0 + 5 :=
  c3_epoch_roundtrip ⟨0, 1606824023, 12, 32, 384⟩ 5 (by decide) (by decide) (by decide)
    (by decide) (by decide) (by decide)

/-! ## C6 — reward split at zero deposit -/

/-- `divRound` of a zero numerator is zero. -/
theorem divRound_zero_left (y : ℚ) : divRound 0 y = 0 := by
  norm_num [divRound, roundHalfAway, DivisionPrecision]

/-- Claim C6 counterexample: at `d = 0`, `r = 100` the user reward is `90`
(90% of `r`), not `85` (85% of `r`) — the code comment itself says
`user = 90%*(1-nodedeposit/32)`. -/
theorem c6_zero_deposit_counterexample :
    (GetUserNodePlatformReward 0 100).1 ≠ 85 ∧ (GetUserNodePlatformReward 0 100).1 = 90 := by
  norm_num [GetUserNodePlatformReward, divRound, roundHalfAway, Percent5Deci, Percent90Deci,
    StandardEffectiveBalanceDeci, DivisionPrecision]

/-- Claim C6 (amended): for every reward `r > 0`,
`GetUserNodePlatformReward(0, r)` returns exactly `userReward = 90%` of
`r`, `nodeReward = 5%` of `r`, and `platformFee = 5%` of `r` (no rounding
occurs at `d = 0`). -/
theorem c6_zero_deposit_split (r : ℚ) (hr : 0 < r) :
    GetUserNodePlatformReward 0 r = (r * (9 / 10), r * (1 / 20), r * (1 / 20)) := by
  have hcond : ¬ (¬ 0 < r ∨ StandardEffectiveBalanceDeci < (0 : ℚ)) := by
    push_neg
    exact ⟨hr, by norm_num [StandardEffectiveBalanceDeci]⟩
  unfold GetUserNodePlatformReward
  rw [if_neg hcond]
  simp only [mul_zero, divRound_zero_left, add_zero]
  rw [show r - r * Percent5Deci - r * Percent5Deci = r * (9 / 10) by
    unfold Percent5Deci; ring]
  rw [if_neg (not_lt.2 (by positivity))]
  simp only [Prod.mk.injEq]
  refine ⟨?_, ?_, ?_⟩ <;> first
    | trivial
    | (unfold Percent5Deci; ring_nf)

/-- Witness for C6 (amended) at `r = 100`. -/
theorem c6_zero_deposit_split_witness :
    GetUserNodePlatformReward 0 100 = (100 * (9 / 10), 100 * (1 / 20), 100 * (1 / 20)) :=
  c6_zero_deposit_split 100 (by norm_num)

/-! ## C7 — ReadLastLine -/

/-- Claim C7 counterexample: on a file ending in `"alpha\nbeta\n"`,
`ReadLastLine` returns `"beta\n"` — the trailing newline is *included* (the
`cursor != -1` guard skips the break for the last byte but the byte is still
prepended) — not `"beta"`. -/
theorem c7_read_last_line_counterexample :
    ReadLastLine (strBytes "alpha\nbeta\n") ≠ strBytes "beta" ∧
    ReadLastLine (strBytes "alpha\nbeta\n") = strBytes "beta\n" := by
  decide

/-- Claim C7 (amended): `ReadLastLine` on a file ending in `"alpha\nbeta\n"`
returns `"beta\n"` (the last line *with* its trailing newline); on an empty
file it returns the empty string; on a file whose last byte is not a newline
or carriage return it returns the last textual line. -/
theorem c7_read_last_line :
    ReadLastLine (strBytes "alpha\nbeta\n") = strBytes "beta\n" ∧
    ReadLastLine (strBytes "") = strBytes "" ∧
    ∀ content c, content.getLast? = some c → c ≠ 10 → c ≠ 13 →
      ReadLastLine content = lastTextualLine content := by
  refine ⟨by decide, by decide, ?_⟩
  intro content c hlast h10 h13
  have hrev : content.reverse.head? = some c := by
    rw [List.head?_reverse]; exact hlast
  cases hr : content.reverse with
  | nil => rw [hr] at hrev; simp at hrev
  | cons a t =>
    rw [hr] at hrev
    simp only [List.head?_cons, Option.some.injEq] at hrev
    subst hrev
    unfold ReadLastLine lastTextualLine
    rw [hr]
    simp [readLastLineRev, List.takeWhile_cons, h10, h13]

/-- Witness for C7 (amended): a file without a trailing newline. -/
theorem c7_read_last_line_witness :
    ReadLastLine (strBytes "alpha\nbeta") = lastTextualLine (strBytes "alpha\nbeta") :=
  c7_read_last_line.2.2 (strBytes "alpha\nbeta") 97 (by decide) (by decide) (by decide)

/-! ## C2 — reward split bounds -/

/-- `divRound` of nonnegative operands is nonnegative. -/
theorem divRound_nonneg (x y : ℚ) (hx : 0 ≤ x) (hy : 0 ≤ y) : 0 ≤ divRound x y := by
  unfold divRound roundHalfAway
  have hq : 0 ≤ x / y * 10 ^ DivisionPrecision := by positivity
  rw [if_pos hq]
  have hfl : (0 : ℤ) ≤ ⌊x / y * 10 ^ DivisionPrecision + 1 / 2⌋ :=
    Int.floor_nonneg.2 (by linarith)
  exact div_nonneg (by exact_mod_cast hfl) (by positivity)

/-- `divRound` does not exceed an integer bound on the scaled quotient:
rounding half away from zero cannot cross an integer that the exact scaled
quotient does not exceed. -/
theorem divRound_le_of_le (x y : ℚ) (N : ℤ) (hq : 0 ≤ x / y * 10 ^ DivisionPrecision)
    (hle : x / y * 10 ^ DivisionPrecision ≤ (N : ℚ)) :
    divRound x y ≤ (N : ℚ) / 10 ^ DivisionPrecision := by
  unfold divRound roundHalfAway
  rw [if_pos hq]
  have h1 : ⌊x / y * 10 ^ DivisionPrecision + 1 / 2⌋ ≤ ⌊(N : ℚ) + 1 / 2⌋ :=
    Int.floor_le_floor (by linarith)
  have h2 : ⌊(N : ℚ) + 1 / 2⌋ = N := by
    rw [Int.floor_int_add]
    norm_num
  rw [h2] at h1
  have h3 : ((⌊x / y * 10 ^ DivisionPrecision + 1 / 2⌋ : ℤ) : ℚ) ≤ (N : ℚ) := by
    exact_mod_cast h1
  exact div_le_div_of_nonneg_right h3 (by positivity) |>.trans_eq rfl

/-- Claim C2: for every reward `r ≥ 0` and node deposit `d ≤ 32·10^18`
(both integer wei amounts, i.e. 18-decimal fixed point), the triple returned
by `GetUserNodePlatformReward(d, r)` has all three components nonnegative
and sums to at most `r`, the deficit being at most one unit of the
division's rounding (in fact the sum equals `r` exactly on this domain). -/
theorem c2_reward_split (d r : Nat) (hd : (d : ℚ) ≤ 32 * 10 ^ 18) :
    0 ≤ (GetUserNodePlatformReward d r).1 ∧
    0 ≤ (GetUserNodePlatformReward d r).2.1 ∧
    0 ≤ (GetUserNodePlatformReward d r).2.2 ∧
    (GetUserNodePlatformReward d r).1 + (GetUserNodePlatformReward d r).2.1 +
        (GetUserNodePlatformReward d r).2.2 ≤ (r : ℚ) ∧
    (r : ℚ) - ((GetUserNodePlatformReward d r).1 + (GetUserNodePlatformReward d r).2.1 +
        (GetUserNodePlatformReward d r).2.2) ≤ 1 / 10 ^ DivisionPrecision := by
  by_cases hr : 0 < (r : ℚ)
  · have hcond : ¬ (¬ 0 < (r : ℚ) ∨ StandardEffectiveBalanceDeci < (d : ℚ)) := by
      push_neg
      refine ⟨hr, ?_⟩
      unfold StandardEffectiveBalanceDeci
      exact hd
    have hq0 : 0 ≤ (r : ℚ) * Percent90Deci * (d : ℚ) / StandardEffectiveBalanceDeci
        * 10 ^ DivisionPrecision := by
      unfold Percent90Deci StandardEffectiveBalanceDeci
      positivity
    have hqle : (r : ℚ) * Percent90Deci * (d : ℚ) / StandardEffectiveBalanceDeci
        * 10 ^ DivisionPrecision ≤ ((9 * (r : ℤ) * 10 ^ 15 : ℤ) : ℚ) := by
      unfold Percent90Deci StandardEffectiveBalanceDeci DivisionPrecision
      rw [div_mul_eq_mul_div, div_le_iff₀ (by positivity)]
      push_cast
      have key : (9 * (r : ℚ) * 10 ^ 15) * (d : ℚ) ≤ (9 * (r : ℚ) * 10 ^ 15) * (32 * 10 ^ 18) :=
        mul_le_mul_of_nonneg_left hd (by positivity)
      nlinarith [key]
    have hdd0 : 0 ≤ divRound ((r : ℚ) * Percent90Deci * (d : ℚ)) StandardEffectiveBalanceDeci := by
      apply divRound_nonneg
      · unfold Percent90Deci; positivity
      · unfold StandardEffectiveBalanceDeci; positivity
    have hdd9 : divRound ((r : ℚ) * Percent90Deci * (d : ℚ)) StandardEffectiveBalanceDeci
        ≤ 9 / 10 * (r : ℚ) := by
      have h1 := divRound_le_of_le ((r : ℚ) * Percent90Deci * (d : ℚ))
        StandardEffectiveBalanceDeci (9 * (r : ℤ) * 10 ^ 15) hq0 hqle
      calc divRound ((r : ℚ) * Percent90Deci * (d : ℚ)) StandardEffectiveBalanceDeci
          ≤ ((9 * (r : ℤ) * 10 ^ 15 : ℤ) : ℚ) / 10 ^ DivisionPrecision := h1
        _ = 9 / 10 * (r : ℚ) := by unfold DivisionPrecision; push_cast; ring
    set dd := divRound ((r : ℚ) * Percent90Deci * (d : ℚ)) StandardEffectiveBalanceDeci
      with hdddef
    have hnneg : ¬ ((r : ℚ) - (r : ℚ) * Percent5Deci -
        ((r : ℚ) * Percent5Deci + dd) < 0) := by
      push_neg
      unfold Percent5Deci
      linarith [hdd9]
    have hexp : GetUserNodePlatformReward (d : ℚ) (r : ℚ) =
        ((r : ℚ) - (r : ℚ) * Percent5Deci - ((r : ℚ) * Percent5Deci + dd),
         (r : ℚ) * Percent5Deci + dd, (r : ℚ) * Percent5Deci) := by
      unfold GetUserNodePlatformReward
      rw [if_neg hcond]
      simp only [← hdddef]
      rw [if_neg hnneg]
    rw [hexp]
    have hp5 : 0 ≤ (r : ℚ) * Percent5Deci := by unfold Percent5Deci; positivity
    refine ⟨?_, ?_, ?_, ?_, ?_⟩
    · show 0 ≤ (r : ℚ) - (r : ℚ) * Percent5Deci - ((r : ℚ) * Percent5Deci + dd)
      unfold Percent5Deci
      linarith [hdd9]
    · show 0 ≤ (r : ℚ) * Percent5Deci + dd
      linarith [hp5, hdd0]
    · exact hp5
    · show (r : ℚ) - (r : ℚ) * Percent5Deci - ((r : ℚ) * Percent5Deci + dd) +
        ((r : ℚ) * Percent5Deci + dd) + (r : ℚ) * Percent5Deci ≤ (r : ℚ)
      apply le_of_eq
      unfold Percent5Deci
      ring
    · show (r : ℚ) - ((r : ℚ) - (r : ℚ) * Percent5Deci - ((r : ℚ) * Percent5Deci + dd) +
        ((r : ℚ) * Percent5Deci + dd) + (r : ℚ) * Percent5Deci) ≤ 1 / 10 ^ DivisionPrecision
      have hzero : (r : ℚ) - ((r : ℚ) - (r : ℚ) * Percent5Deci -
          ((r : ℚ) * Percent5Deci + dd) + ((r : ℚ) * Percent5Deci + dd) +
          (r : ℚ) * Percent5Deci) = 0 := by ring
      rw [hzero]
      norm_num [DivisionPrecision]
  · have hcond : (¬ 0 < (r : ℚ) ∨ StandardEffectiveBalanceDeci < (d : ℚ)) := Or.inl hr
    unfold GetUserNodePlatformReward
    rw [if_pos hcond]
    have hr0 : (r : ℚ) = 0 := le_antisymm (not_lt.1 hr) (Nat.cast_nonneg r)
    norm_num [hr0, DivisionPrecision]

/-- Witness for C2 at the spec's scenario `d = 16·10^18`, `r = 10^18`. -/
theorem c2_reward_split_witness :
    0 ≤ (GetUserNodePlatformReward ((16 * 10 ^ 18 : ℕ) : ℚ) ((10 ^ 18 : ℕ) : ℚ)).1 ∧
    0 ≤ (GetUserNodePlatformReward ((16 * 10 ^ 18 : ℕ) : ℚ) ((10 ^ 18 : ℕ) : ℚ)).2.1 ∧
    0 ≤ (GetUserNodePlatformReward ((16 * 10 ^ 18 : ℕ) : ℚ) ((10 ^ 18 : ℕ) : ℚ)).2.2 ∧
    (GetUserNodePlatformReward ((16 * 10 ^ 18 : ℕ) : ℚ) ((10 ^ 18 : ℕ) : ℚ)).1 +
        (GetUserNodePlatformReward ((16 * 10 ^ 18 : ℕ) : ℚ) ((10 ^ 18 : ℕ) : ℚ)).2.1 +
        (GetUserNodePlatformReward ((16 * 10 ^ 18 : ℕ) : ℚ) ((10 ^ 18 : ℕ) : ℚ)).2.2 ≤
      ((10 ^ 18 : ℕ) : ℚ) ∧
    ((10 ^ 18 : ℕ) : ℚ) -
        ((GetUserNodePlatformReward ((16 * 10 ^ 18 : ℕ) : ℚ) ((10 ^ 18 : ℕ) : ℚ)).1 +
          (GetUserNodePlatformReward ((16 * 10 ^ 18 : ℕ) : ℚ) ((10 ^ 18 : ℕ) : ℚ)).2.1 +
          (GetUserNodePlatformReward ((16 * 10 ^ 18 : ℕ) : ℚ) ((10 ^ 18 : ℕ) : ℚ)).2.2) ≤
      1 / 10 ^ DivisionPrecision :=
  c2_reward_split (16 * 10 ^ 18) (10 ^ 18) (by norm_num)

/-! ## C4 — WaitTxOk -/

/-- A successful receipt loop found a receipt at some attempt in its fuel
window, every earlier attempt in the window having failed. -/
theorem receiptLoopAux_ok (f : Nat → ReceiptResp) :
    ∀ fuel subRetry st bn, receiptLoopAux f fuel subRetry = .ok (st, bn) →
      ∃ j, subRetry ≤ j ∧ j < subRetry + fuel ∧ f j = .found st bn ∧
        ∀ l, subRetry ≤ l → l < j → f l = .rpcErr := by
  intro fuel
  induction fuel with
  | zero =>
    intro s st bn h
    simp [receiptLoopAux] at h
  | succ n ih =>
    intro s st bn h
    cases hf : f s with
    | rpcErr =>
      simp only [receiptLoopAux, hf] at h
      obtain ⟨j, hj1, hj2, hj3, hj4⟩ := ih (s + 1) st bn h
      refine ⟨j, by omega, by omega, hj3, ?_⟩
      intro l hl1 hl2
      rcases Nat.eq_or_lt_of_le hl1 with hls | hls
      · rw [← hls]; exact hf
      · exact hj4 l hls hl2
    | found a b =>
      simp only [receiptLoopAux, hf, Except.ok.injEq, Prod.mk.injEq] at h
      refine ⟨s, Nat.le_refl s, by omega, ?_, ?_⟩
      · rw [hf, h.1, h.2]
      · intro l hl1 hl2
        omega

/-- A successful outer loop reached `notPending` at some attempt in its fuel
window, every earlier attempt in the window not being `notPending`, and the
receipt loop returned a status-1 receipt with the returned block number. -/
theorem txLoopAux_ok (g : Nat → TxByHashResp) (f : Nat → ReceiptResp) :
    ∀ fuel retry bn, txLoopAux g f fuel retry = .ok bn →
      ∃ i, retry ≤ i ∧ i < retry + fuel ∧ g i = .notPending ∧
        (∀ j, retry ≤ j → j < i → g j ≠ .notPending) ∧
        receiptLoop f 0 = .ok (1, bn) := by
  intro fuel
  induction fuel with
  | zero =>
    intro retry bn h
    simp [txLoopAux] at h
  | succ n ih =>
    intro retry bn h
    cases hg : g retry with
    | rpcErr =>
      simp only [txLoopAux, hg] at h
      obtain ⟨i, hi1, hi2, hi3, hi4, hi5⟩ := ih (retry + 1) bn h
      refine ⟨i, by omega, by omega, hi3, ?_, hi5⟩
      intro j hj1 hj2
      rcases Nat.eq_or_lt_of_le hj1 with hjs | hjs
      · rw [← hjs, hg]; intro hc; cases hc
      · exact hi4 j hjs hj2
    | pending =>
      simp only [txLoopAux, hg] at h
      obtain ⟨i, hi1, hi2, hi3, hi4, hi5⟩ := ih (retry + 1) bn h
      refine ⟨i, by omega, by omega, hi3, ?_, hi5⟩
      intro j hj1 hj2
      rcases Nat.eq_or_lt_of_le hj1 with hjs | hjs
      · rw [← hjs, hg]; intro hc; cases hc
      · exact hi4 j hjs hj2
    | notPending =>
      simp only [txLoopAux, hg] at h
      cases hrc : receiptLoop f 0 with
      | error e =>
        rw [hrc] at h
        simp at h
      | ok p =>
        rw [hrc] at h
        obtain ⟨st, b⟩ := p
        by_cases hst : st = 1
        · subst hst
          simp at h
          subst h
          exact ⟨retry, Nat.le_refl retry, by omega, hg, fun j hj1 hj2 => by omega, rfl⟩
        · simp [hst] at h

/-- If no attempt in the fuel window answers `notPending`, the outer loop
exhausts its budget and errors. -/
theorem txLoopAux_stuck (g : Nat → TxByHashResp) (f : Nat → ReceiptResp) :
    ∀ fuel retry, (∀ i, retry ≤ i → i < retry + fuel → g i ≠ .notPending) →
      ∃ e, txLoopAux g f fuel retry = .error e := by
  intro fuel
  induction fuel with
  | zero =>
    intro retry _
    exact ⟨_, rfl⟩
  | succ n ih =>
    intro retry hall
    cases hg : g retry with
    | rpcErr =>
      obtain ⟨e, he⟩ := ih (retry + 1) (fun i h1 h2 => hall i (by omega) (by omega))
      exact ⟨e, by simp only [txLoopAux, hg]; exact he⟩
    | pending =>
      obtain ⟨e, he⟩ := ih (retry + 1) (fun i h1 h2 => hall i (by omega) (by omega))
      exact ⟨e, by simp only [txLoopAux, hg]; exact he⟩
    | notPending =>
      exact absurd hg (hall retry (Nat.le_refl retry) (by omega))

/-- Reaching the first `notPending` attempt inside the fuel window, the
outer loop returns exactly the receipt-loop verdict. -/
theorem txLoopAux_reach (g : Nat → TxByHashResp) (f : Nat → ReceiptResp) :
    ∀ fuel retry i, retry ≤ i → i < retry + fuel → g i = .notPending →
      (∀ j, retry ≤ j → j < i → g j ≠ .notPending) →
      txLoopAux g f fuel retry =
        (match receiptLoop f 0 with
         | .error e => .error e
         | .ok (status, blockNumber) =>
           if status = 1 then .ok blockNumber else .error "tx failed") := by
  intro fuel
  induction fuel with
  | zero =>
    intro retry i h1 h2
    omega
  | succ n ih =>
    intro retry i h1 h2 hgi hprev
    rcases Nat.eq_or_lt_of_le h1 with hri | hri
    · subst hri
      simp only [txLoopAux, hgi]
    · cases hg : g retry with
      | rpcErr =>
        simp only [txLoopAux, hg]
        exact ih (retry + 1) i (by omega) (by omega) hgi
          (fun j hj1 hj2 => hprev j (by omega) hj2)
      | pending =>
        simp only [txLoopAux, hg]
        exact ih (retry + 1) i (by omega) (by omega) hgi
          (fun j hj1 hj2 => hprev j (by omega) hj2)
      | notPending =>
        exact absurd hg (hprev retry (Nat.le_refl retry) hri)

/-- Claim C4: `WaitTxOk` polls `TransactionByHash` until the transaction is
not pending and then polls `TransactionReceipt` until present, each inner
loop making its first attempt plus up to `RetryLimit = 600` retries at
`RetryInterval = 6`-second intervals; on any terminal failure (receipt
status ≠ 1, or retries exhausted) it fires the shutdown signal and returns
an error; on success it returns the block number of the status-1 receipt,
with no shutdown. -/
theorem c4_wait_tx_ok :
    RetryLimit = 600 ∧ RetryInterval = 6 ∧
    (∀ g f bn, (WaitTxOkCommon g f).blockNumber = some bn →
      (WaitTxOkCommon g f).shutdownFired = false ∧ (WaitTxOkCommon g f).errMsg = none ∧
      (∃ i, i ≤ RetryLimit ∧ g i = .notPending ∧
        (∀ j, j < i → g j ≠ .notPending) ∧
        ∃ k, k ≤ RetryLimit ∧ f k = .found 1 bn ∧ ∀ l, l < k → f l = .rpcErr)) ∧
    (∀ g f, (WaitTxOkCommon g f).errMsg.isSome →
      (WaitTxOkCommon g f).shutdownFired = true ∧ (WaitTxOkCommon g f).blockNumber = none) ∧
    (∀ g f, (∀ i, i ≤ RetryLimit → g i ≠ .notPending) →
      (WaitTxOkCommon g f).errMsg.isSome ∧ (WaitTxOkCommon g f).shutdownFired = true) ∧
    (∀ g f i st bn, i ≤ RetryLimit → g i = .notPending →
      (∀ j, j < i → g j ≠ .notPending) → receiptLoop f 0 = .ok (st, bn) → st ≠ 1 →
      (WaitTxOkCommon g f).errMsg.isSome ∧ (WaitTxOkCommon g f).shutdownFired = true) := by
  refine ⟨rfl, rfl, ?_, ?_, ?_, ?_⟩
  · intro g f bn h
    unfold WaitTxOkCommon at h ⊢
    cases htx : txLoop g f 0 with
    | error e =>
      rw [htx] at h
      simp at h
    | ok b =>
      rw [htx] at h
      simp only at h
      cases h
      refine ⟨rfl, rfl, ?_⟩
      have htx2 : txLoopAux g f (RetryLimit + 1) 0 = .ok bn := by
        rw [← htx]
        simp [txLoop]
      obtain ⟨i, _, hi2, hi3, hi4, hrc⟩ := txLoopAux_ok g f (RetryLimit + 1) 0 bn htx2
      have hrc2 : receiptLoopAux f (RetryLimit + 1) 0 = .ok (1, bn) := by
        rw [← hrc]
        simp [receiptLoop]
      obtain ⟨k, _, hk2, hk3, hk4⟩ := receiptLoopAux_ok f (RetryLimit + 1) 0 1 bn hrc2
      exact ⟨i, by omega, hi3, fun j hj => hi4 j (by omega) hj,
        k, by omega, hk3, fun l hl => hk4 l (by omega) hl⟩
  · intro g f h
    unfold WaitTxOkCommon at h ⊢
    cases htx : txLoop g f 0 with
    | error e => exact ⟨rfl, rfl⟩
    | ok b => rw [htx] at h; simp at h
  · intro g f hall
    obtain ⟨e, he⟩ := txLoopAux_stuck g f (RetryLimit + 1) 0
      (fun i h1 h2 => hall i (by omega))
    have htx : txLoop g f 0 = .error e := by
      rw [txLoop]
      simpa using he
    unfold WaitTxOkCommon
    rw [htx]
    exact ⟨rfl, rfl⟩
  · intro g f i st bn hi hgi hprev hrc hst
    have htx : txLoop g f 0 = .error "tx failed" := by
      rw [txLoop]
      have := txLoopAux_reach g f (RetryLimit + 1) 0 i (by omega) (by omega) hgi
        (fun j _ hj2 => hprev j hj2)
      simp only [Nat.sub_zero]
      rw [this, hrc]
      simp [hst]
    unfold WaitTxOkCommon
    rw [htx]
    exact ⟨rfl, rfl⟩

/-- Witness for C4: an immediately-found transaction with a status-1
receipt at block 42 (success conjunct), instantiated concretely. -/
theorem c4_wait_tx_ok_witness :
    (WaitTxOkCommon (fun _ => .notPending) (fun _ => .found 1 42)).shutdownFired = false ∧
    (WaitTxOkCommon (fun _ => .notPending) (fun _ => .found 1 42)).errMsg = none ∧
    (∃ i, i ≤ RetryLimit ∧ (fun _ => TxByHashResp.notPending) i = .notPending ∧
      (∀ j, j < i → (fun _ => TxByHashResp.notPending) j ≠ .notPending) ∧
      ∃ k, k ≤ RetryLimit ∧ (fun _ => ReceiptResp.found 1 42) k = .found 1 42 ∧
        ∀ l, l < k → (fun _ => ReceiptResp.found 1 42) l = .rpcErr) :=
  c4_wait_tx_ok.2.2.1 (fun _ => .notPending) (fun _ => .found 1 42) 42 (by decide)

/-! ## C1 — idempotent voting -/

/-- Claim C1: whenever a `setMerkleRoot` run reaches the `HasVoted` gate
with proposal id `VoteMerkleRootProposalId(targetEpoch, root, cid)` already
voted by this relay, it returns success without submitting a `SetMerkleRoot`
transaction; consequently a successful run followed by a second run over the
same environment (hence computing the same `(targetEpoch, root, cid)`)
submits at most one transaction in total. -/
theorem c1_idempotent_voting :
    (∀ env w targetEpoch root32 cid uploaded,
      prepareSetMerkleRoot env = .ready targetEpoch root32 cid uploaded →
      env.hasVotedErr = false →
      w.hasVoted (VoteMerkleRootProposalId targetEpoch root32 cid) = true →
      setMerkleRoot env w = (⟨none, some uploaded, none⟩, w)) ∧
    (∀ env w, (setMerkleRoot env w).1.err = none →
      (setMerkleRoot env w).1.txCount +
        (setMerkleRoot env (setMerkleRoot env w).2).1.txCount ≤ 1) := by
  constructor
  · intro env w te root cid up hprep hverr hvoted
    unfold setMerkleRoot
    rw [hprep]
    simp [hverr, hvoted]
  · intro env w herr
    cases hprep : prepareSetMerkleRoot env with
    | noGo => simp [setMerkleRoot, hprep, SmrOutcome.txCount]
    | fail e => simp [setMerkleRoot, hprep] at herr
    | earlyOk => simp [setMerkleRoot, hprep, SmrOutcome.txCount]
    | ready te root cid up =>
      by_cases hverr : env.hasVotedErr = true
      · simp [setMerkleRoot, hprep, hverr] at herr
      · rw [Bool.not_eq_true] at hverr
        by_cases hv : w.hasVoted (VoteMerkleRootProposalId te root cid) = true
        · simp [setMerkleRoot, hprep, hverr, hv, SmrOutcome.txCount]
        · rw [Bool.not_eq_true] at hv
          by_cases hlock : env.lockTxOptsOk = true
          · by_cases hsend : env.sendTxOk = true
            · by_cases hwait : env.waitTxSucceeds = true
              · have hfirst : setMerkleRoot env w =
                    (⟨none, some up, some (te, root, cid)⟩,
                     ⟨VoteMerkleRootProposalId te root cid :: w.voted⟩) := by
                  unfold setMerkleRoot sendSetMerkleRootTx
                  rw [hprep]
                  simp [hverr, hv, hlock, hsend, hwait]
                rw [hfirst]
                have hsecond : (setMerkleRoot env
                    ⟨VoteMerkleRootProposalId te root cid :: w.voted⟩).1.txCount = 0 := by
                  unfold setMerkleRoot
                  rw [hprep]
                  simp [hverr, ChainWorld.hasVoted, SmrOutcome.txCount]
                simp only [hsecond]
                simp [SmrOutcome.txCount]
              · rw [Bool.not_eq_true] at hwait
                have : (setMerkleRoot env w).1.err = some "tx failed" := by
                  unfold setMerkleRoot sendSetMerkleRootTx
                  rw [hprep]
                  simp [hverr, hv, hlock, hsend, hwait]
                rw [this] at herr
                cases herr
            · rw [Bool.not_eq_true] at hsend
              have : (setMerkleRoot env w).1.err = some "SetMerkleRoot send err" := by
                unfold setMerkleRoot sendSetMerkleRootTx
                rw [hprep]
                simp [hverr, hv, hlock, hsend]
              rw [this] at herr
              cases herr
          · rw [Bool.not_eq_true] at hlock
            have : (setMerkleRoot env w).1.err = some "LockAndUpdateTxOpts err" := by
              unfold setMerkleRoot sendSetMerkleRootTx
              rw [hprep]
              simp [hverr, hv, hlock]
            rw [this] at herr
            cases herr

/-- Witness for C1: the concrete empty-rewards environment.  Part one at a
world that has already voted the proposal id (the run succeeds and sends
nothing); part two at the fresh world (the two runs together send one
transaction). -/
theorem c1_idempotent_voting_witness :
    setMerkleRoot smrEnvEmpty
        ⟨[VoteMerkleRootProposalId 75 (List.replicate 32 0) "cid-empty"]⟩ =
      (⟨none, some [], none⟩,
       ⟨[VoteMerkleRootProposalId 75 (List.replicate 32 0) "cid-empty"]⟩) ∧
    (setMerkleRoot smrEnvEmpty ⟨[]⟩).1.txCount +
        (setMerkleRoot smrEnvEmpty (setMerkleRoot smrEnvEmpty ⟨[]⟩).2).1.txCount ≤ 1 :=
  ⟨c1_idempotent_voting.1 smrEnvEmpty
      ⟨[VoteMerkleRootProposalId 75 (List.replicate 32 0) "cid-empty"]⟩
      75 (List.replicate 32 0) "cid-empty" [] (by rfl) (by rfl) (by decide),
   c1_idempotent_voting.2 smrEnvEmpty ⟨[]⟩ (by rfl)⟩

/-! ## C5 — empty Merkle proof handling -/

/-- Claim C5 exhibit: with a single node in the final rewards list the tree
has one leaf, `GetProof` succeeds with an *empty* proof, and the
`len(proofList) == 0` branch executes `return errors.Wrap(err, "tree.GetProof
result empty")` with `err = nil` — which is nil.  `setMerkleRoot` therefore
returns success (no error, no shutdown escalation) while skipping the upload
and the vote entirely, contradicting the spec's required fatal error. -/
theorem c5_empty_proof_silent_success :
    errorsWrap none "tree.GetProof result empty" = none ∧
    getProof (NewMerkleTree [nodeLeafHash
        { address := "0xabc", index := 0, totalRewardAmount := 5,
          totalExitDepositAmount := 0, proof := "" }])
      (nodeLeafHash
        { address := "0xabc", index := 0, totalRewardAmount := 5,
          totalExitDepositAmount := 0, proof := "" }) = .ok [] ∧
    prepareSetMerkleRoot smrEnvOneNode = .earlyOk ∧
    setMerkleRoot smrEnvOneNode ⟨[]⟩ = (⟨none, none, none⟩, ⟨[]⟩) :=
  ⟨rfl, rfl, rfl, rfl⟩

/-! ## C9 — empty final list -/

/-- Claim C9: when the merged final node-rewards list is empty (nothing
dealt on-chain yet and no new rewards in the window) and the target epoch
has been reached and synced, `setMerkleRoot` raises no error: it skips the
Merkle tree, uploads the empty list, and votes a proposal whose Merkle root
is the all-zero 32-byte value. -/
theorem c9_empty_list_zero_root (env : SmrEnv) (w : ChainWorld) (fin tb : Nat) (cid : String)
    (hfin : env.beaconFinalizedEpoch = some fin)
    (hdealed : env.latestMerkleRootEpochOnchain = some 0)
    (htepos : 0 < fin / env.merkleRootDuEpochs * env.merkleRootDuEpochs)
    (hblock : env.epochStartBlock (fin / env.merkleRootDuEpochs * env.merkleRootDuEpochs)
      = some tb)
    (hsync : tb ≤ env.latestBlockOfSyncBlock)
    (hnew : env.getNodeNewRewardsBetween env.networkCreateBlock tb = some [])
    (hupload : env.uploadFile [] = some cid)
    (hverr : env.hasVotedErr = false)
    (hnv : w.hasVoted (VoteMerkleRootProposalId
      (fin / env.merkleRootDuEpochs * env.merkleRootDuEpochs)
      (List.replicate 32 0) cid) = false)
    (hlock : env.lockTxOptsOk = true) (hsend : env.sendTxOk = true)
    (hwait : env.waitTxSucceeds = true) :
    setMerkleRoot env w =
      (⟨none, some [],
        some (fin / env.merkleRootDuEpochs * env.merkleRootDuEpochs,
          List.replicate 32 0, cid)⟩,
       ⟨VoteMerkleRootProposalId (fin / env.merkleRootDuEpochs * env.merkleRootDuEpochs)
          (List.replicate 32 0) cid :: w.voted⟩) := by
  have hte2 : ¬ fin / env.merkleRootDuEpochs * env.merkleRootDuEpochs ≤ 0 := by omega
  have hsync2 : ¬ tb > env.latestBlockOfSyncBlock := by omega
  have hcs : checkStateForSetMerkleRoot env =
      .ok (some (0, fin / env.merkleRootDuEpochs * env.merkleRootDuEpochs, tb)) := by
    unfold checkStateForSetMerkleRoot
    rw [hfin, hdealed]
    simp only [hblock, hte2, hsync2, if_neg, ite_false]
  have hprep : prepareSetMerkleRoot env =
      .ready (fin / env.merkleRootDuEpochs * env.merkleRootDuEpochs)
        (copyInto32 []) cid [] := by
    unfold prepareSetMerkleRoot
    rw [hcs]
    simp only [gt_iff_lt, lt_irrefl, ite_false, if_neg, Nat.lt_irrefl]
    rw [hnew]
    simp only [show buildPreMap ([] : List NodeReward) [] = some [] from rfl,
      show buildFinalList [] [] = [] from rfl, List.length_nil, gt_iff_lt, Nat.lt_irrefl,
      ite_false, if_neg]
    rw [hupload]
  rw [show copyInto32 [] = List.replicate 32 0 from rfl] at hprep
  unfold setMerkleRoot sendSetMerkleRootTx
  rw [hprep]
  simp only [hverr, hnv, hlock, hsend, hwait, Bool.false_eq_true, not_true_eq_false,
    not_false_eq_true, ite_true, ite_false, if_true, if_false]

/-- Witness for C9: the concrete empty-rewards environment at a fresh
world: target epoch `75 = (80/75)*75`, zero root, cid `"cid-empty"`. -/
theorem c9_empty_list_zero_root_witness :
    setMerkleRoot smrEnvEmpty ⟨[]⟩ =
      (⟨none, some [], some (75, List.replicate 32 0, "cid-empty")⟩,
       ⟨[VoteMerkleRootProposalId 75 (List.replicate 32 0) "cid-empty"]⟩) := by
  have h := c9_empty_list_zero_root smrEnvEmpty ⟨[]⟩ 80 500 "cid-empty"
    (by rfl) (by rfl) (by decide) (by rfl) (by decide) (by rfl) (by rfl) (by rfl)
    (by decide) (by rfl) (by rfl) (by rfl)
  simpa using h

/-! ## C8 / C10 — manager reconciliation -/

/-- A successful lookup pins a member pair. -/
theorem lookup_mem_pairs (l : List (String × Service)) (k : String) (v : Service)
    (h : List.lookup k l = some v) : (k, v) ∈ l := by
  induction l with
  | nil => simp [List.lookup] at h
  | cons p rest ih =>
    obtain ⟨a, b⟩ := p
    by_cases hk : (k == a) = true
    · simp only [List.lookup, hk, Option.some.injEq] at h
      subst h
      have hka : k = a := eq_of_beq hk
      subst hka
      exact List.mem_cons_self _ _
    · simp only [List.lookup, hk] at h
      exact List.mem_cons_of_mem _ (ih h)

/-- Lookup distributes over append, first list first. -/
theorem lookup_append_pairs (l m : List (String × Service)) (k : String) :
    List.lookup k (l ++ m) =
      (match List.lookup k l with
       | some v => some v
       | none => List.lookup k m) := by
  induction l with
  | nil => simp [List.lookup]
  | cons p rest ih =>
    obtain ⟨a, b⟩ := p
    by_cases hk : (k == a) = true
    · simp [List.lookup, hk]
    · simp [List.lookup, hk, ih]

/-- Appending a fresh binding: present iff present before or equal to the
new key. -/
theorem lookup_append_single (l : List (String × Service)) (k t : String) (v : Service) :
    (List.lookup t (l ++ [(k, v)])).isSome ↔ ((List.lookup t l).isSome ∨ t = k) := by
  rw [lookup_append_pairs]
  cases hl : List.lookup t l with
  | some w => simp
  | none =>
    by_cases hk : t = k
    · subst hk
      simp [List.lookup]
    · have hbe : (t == k) = false := by simp [hk]
      simp [List.lookup, hbe, hk]

/-- Appending a fresh binding preserves earlier successful lookups. -/
theorem lookup_append_single_pres (l : List (String × Service)) (k t : String)
    (v w : Service) (h : List.lookup t l = some w) :
    List.lookup t (l ++ [(k, v)]) = some w := by
  rw [lookup_append_pairs, h]

/-- Lookup in a key-filtered list. -/
theorem lookup_filter_pairs (l : List (String × Service)) (tokens : List String) (k : String) :
    List.lookup k (l.filter (fun p => tokens.contains p.1)) =
      if tokens.contains k = true then List.lookup k l else none := by
  induction l with
  | nil => simp [List.lookup]
  | cons p rest ih =>
    obtain ⟨a, b⟩ := p
    rw [List.filter_cons]
    by_cases hmem : tokens.contains a = true
    · rw [if_pos hmem]
      by_cases hk : (k == a) = true
      · have hka : k = a := eq_of_beq hk
        subst hka
        rw [if_pos hmem]
        simp only [List.lookup, hk]
      · have hbe : (k == a) = false := Bool.eq_false_iff.2 hk
        simp only [List.lookup, hbe]
        exact ih
    · rw [if_neg hmem, ih]
      by_cases hk : (k == a) = true
      · have hka : k = a := eq_of_beq hk
        subst hka
        have hcf : tokens.contains k = false := Bool.eq_false_iff.2 hmem
        have hknotin : k ∉ tokens := by simpa using hcf
        simp [hknotin]
      · have hbe : (k == a) = false := Bool.eq_false_iff.2 hk
        simp only [List.lookup, hbe]

/-- Shape of a successful `newAndStartServiceFor`. -/
theorem newAndStartServiceFor_some (env : MgrEnv) (t : String) (st : ManagerState)
    (srv : Service) (st2 : ManagerState)
    (h : newAndStartServiceFor env t st = some (srv, st2)) :
    srv = { cfg := { st.cfg with
              contracts := { st.cfg.contracts with lsdTokenAddress := t } },
            id := st.nextId } ∧
    st2 = { st with srvs := mapStore st.srvs t srv, nextId := st.nextId + 1 } := by
  unfold newAndStartServiceFor at h
  by_cases h1 : env.newServiceOk t = true
  · by_cases h2 : env.startServiceOk t = true
    · rw [if_neg (by simp [h1]), if_neg (by simp [h2])] at h
      simp only [Option.some.injEq, Prod.mk.injEq] at h
      obtain ⟨h3, h4⟩ := h
      subst h3
      subst h4
      exact ⟨rfl, rfl⟩
    · rw [if_neg (by simp [h1]), if_pos (by simp [h2])] at h
      simp at h
  · rw [if_pos (by simp [h1])] at h
    simp at h

/-- The add loop does not touch `stoppedIds` or the manager config. -/
theorem syncAddTokens_frame (env : MgrEnv) :
    ∀ ts (st st' : ManagerState), syncAddTokens env ts st = some st' →
      st'.stoppedIds = st.stoppedIds ∧ st'.cfg = st.cfg := by
  intro ts
  induction ts with
  | nil =>
    intro st st' h
    simp only [syncAddTokens, Option.some.injEq] at h
    subst h
    exact ⟨rfl, rfl⟩
  | cons token rest ih =>
    intro st st' h
    by_cases hex : (List.lookup token st.srvs).isSome = true
    · simp only [syncAddTokens, hex, if_true] at h
      exact ih st st' h
    · simp only [syncAddTokens, hex, Bool.false_eq_true, if_false] at h
      cases hnew : newAndStartServiceFor env token st with
      | none => rw [hnew] at h; simp at h
      | some p =>
        rw [hnew] at h
        obtain ⟨srv, st2⟩ := p
        obtain ⟨-, hst2⟩ := newAndStartServiceFor_some env token st srv st2 hnew
        obtain ⟨h1, h2⟩ := ih st2 st' h
        subst hst2
        exact ⟨h1, h2⟩

/-- The add loop preserves every existing binding unchanged. -/
theorem syncAddTokens_preserves (env : MgrEnv) :
    ∀ ts (st st' : ManagerState), syncAddTokens env ts st = some st' →
      ∀ t v, List.lookup t st.srvs = some v → List.lookup t st'.srvs = some v := by
  intro ts
  induction ts with
  | nil =>
    intro st st' h t v hl
    simp only [syncAddTokens, Option.some.injEq] at h
    subst h
    exact hl
  | cons token rest ih =>
    intro st st' h t v hl
    by_cases hex : (List.lookup token st.srvs).isSome = true
    · simp only [syncAddTokens, hex, if_true] at h
      exact ih st st' h t v hl
    · simp only [syncAddTokens, hex, Bool.false_eq_true, if_false] at h
      cases hnew : newAndStartServiceFor env token st with
      | none => rw [hnew] at h; simp at h
      | some p =>
        rw [hnew] at h
        obtain ⟨srv, st2⟩ := p
        obtain ⟨-, hst2⟩ := newAndStartServiceFor_some env token st srv st2 hnew
        apply ih st2 st' h t v
        subst hst2
        simp only
        rw [show mapStore st.srvs token srv = st.srvs ++ [(token, srv)] by
          unfold mapStore
          rw [if_neg hex]]
        exact lookup_append_single_pres st.srvs token t srv v hl

/-- After a successful add loop, a token is present iff it was present
before or is listed. -/
theorem syncAddTokens_keys (env : MgrEnv) :
    ∀ ts (st st' : ManagerState), syncAddTokens env ts st = some st' →
      ∀ t, (List.lookup t st'.srvs).isSome ↔
        ((List.lookup t st.srvs).isSome ∨ t ∈ ts) := by
  intro ts
  induction ts with
  | nil =>
    intro st st' h t
    simp only [syncAddTokens, Option.some.injEq] at h
    subst h
    simp
  | cons token rest ih =>
    intro st st' h t
    by_cases hex : (List.lookup token st.srvs).isSome = true
    · simp only [syncAddTokens, hex, if_true] at h
      rw [ih st st' h t]
      constructor
      · rintro (h1 | h1)
        · exact Or.inl h1
        · exact Or.inr (List.mem_cons_of_mem _ h1)
      · rintro (h1 | h1)
        · exact Or.inl h1
        · rcases List.mem_cons.1 h1 with h2 | h2
          · subst h2
            exact Or.inl hex
          · exact Or.inr h2
    · simp only [syncAddTokens, hex, Bool.false_eq_true, if_false] at h
      cases hnew : newAndStartServiceFor env token st with
      | none => rw [hnew] at h; simp at h
      | some p =>
        rw [hnew] at h
        obtain ⟨srv, st2⟩ := p
        obtain ⟨-, hst2⟩ := newAndStartServiceFor_some env token st srv st2 hnew
        rw [ih st2 st' h t]
        have hsrvs : st2.srvs = st.srvs ++ [(token, srv)] := by
          subst hst2
          simp only
          unfold mapStore
          rw [if_neg (fun hc => hex hc)]
        rw [hsrvs, lookup_append_single]
        constructor
        · rintro ((h1 | h1) | h1)
          · exact Or.inl h1
          · exact Or.inr (by subst h1; exact List.mem_cons_self _ _)
          · exact Or.inr (List.mem_cons_of_mem _ h1)
        · rintro (h1 | h1)
          · exact Or.inl (Or.inl h1)
          · rcases List.mem_cons.1 h1 with h2 | h2
            · exact Or.inl (Or.inr h2)
            · exact Or.inr h2

/-- Claim C8: after one successful pass of `syncEntrustedLsdTokens` in
which the factory returned token set `S`, the keys of the services map
equal `S`; services for tokens remaining in `S` are untouched (same
service value); services for tokens not in `S` are deleted and stopped. -/
theorem c8_reconciliation (env : MgrEnv) (st st' : ManagerState) (tokens : List String)
    (hf : env.factoryTokens = some tokens)
    (hs : syncEntrustedLsdTokens env st = some st') :
    (∀ t, (List.lookup t st'.srvs).isSome ↔ t ∈ tokens) ∧
    (∀ t v, List.lookup t st.srvs = some v → t ∈ tokens →
      List.lookup t st'.srvs = some v) ∧
    (∀ t v, List.lookup t st.srvs = some v → t ∉ tokens →
      List.lookup t st'.srvs = none ∧ v.id ∈ st'.stoppedIds) := by
  unfold syncEntrustedLsdTokens at hs
  rw [hf] at hs
  cases hadd : syncAddTokens env tokens st with
  | none =>
    simp only [hadd] at hs
    exact absurd hs (by simp)
  | some st1 =>
    simp only [hadd, Option.some.injEq] at hs
    subst hs
    have hkeys := syncAddTokens_keys env tokens st st1 hadd
    have hpres := syncAddTokens_preserves env tokens st st1 hadd
    refine ⟨?_, ?_, ?_⟩
    · intro t
      unfold syncRemoveTokens
      simp only
      rw [lookup_filter_pairs]
      by_cases hmem : tokens.contains t = true
      · rw [if_pos hmem]
        have htmem : t ∈ tokens := by simpa using hmem
        constructor
        · intro _
          exact htmem
        · intro _
          exact (hkeys t).2 (Or.inr htmem)
      · rw [if_neg hmem]
        simp only [Option.isSome_none, Bool.false_eq_true, false_iff]
        intro hmem2
        exact hmem (by simpa using hmem2)
    · intro t v hl htmem
      unfold syncRemoveTokens
      simp only
      rw [lookup_filter_pairs, if_pos (by simpa using htmem)]
      exact hpres t v hl
    · intro t v hl hnmem
      have hl1 : List.lookup t st1.srvs = some v := hpres t v hl
      have hcont : tokens.contains t = false := by
        rw [Bool.eq_false_iff]
        intro hc
        exact hnmem (by simpa using hc)
      unfold syncRemoveTokens
      constructor
      · simp only
        rw [lookup_filter_pairs, hcont]
        simp [hnmem]
      · simp only
        apply List.mem_append_right
        exact List.mem_map.2 ⟨(t, v),
          List.mem_filter.2 ⟨lookup_mem_pairs st1.srvs t v hl1, by simp [hcont, hnmem]⟩, rfl⟩

/-- Witness for C8 at the concrete demo: the factory drops `T2`; after the
pass `T2`'s service (id 1) is gone and recorded stopped. -/
theorem c8_reconciliation_witness :
    List.lookup "T2" mgrStateDemoSynced.srvs = none ∧
    Service.id { cfg := cfgDemo, id := 1 } ∈ mgrStateDemoSynced.stoppedIds :=
  (c8_reconciliation mgrEnvDemo mgrStateDemo mgrStateDemoSynced ["T1"]
    (by rfl) (by rfl)).2.2 "T2" { cfg := cfgDemo, id := 1 } (by rfl) (by decide)

/-- Claim C10: `newAndStartServiceFor` builds the new service from a copy
of the manager's configuration in which only `Contracts.LsdTokenAddress` is
replaced by the given token, and leaves the manager's own configuration
unchanged. -/
theorem c10_new_service_config_frame (env : MgrEnv) (lsdToken : String)
    (st : ManagerState) (srv : Service) (st2 : ManagerState)
    (h : newAndStartServiceFor env lsdToken st = some (srv, st2)) :
    srv.cfg = { st.cfg with
      contracts := { st.cfg.contracts with lsdTokenAddress := lsdToken } } ∧
    st2.cfg = st.cfg := by
  obtain ⟨hsrv, hst2⟩ := newAndStartServiceFor_some env lsdToken st srv st2 h
  subst hsrv
  subst hst2
  exact ⟨rfl, rfl⟩

/-- Witness for C10: adding token `T9` to the demo manager state. -/
theorem c10_new_service_config_frame_witness :
    srvDemoT9.cfg = { mgrStateDemo.cfg with
      contracts := { mgrStateDemo.cfg.contracts with lsdTokenAddress := "T9" } } ∧
    mgrStateDemoT9.cfg = mgrStateDemo.cfg :=
  c10_new_service_config_frame mgrEnvDemo "T9" mgrStateDemo srvDemoT9 mgrStateDemoT9 (by rfl)
